import Mathlib

/-!
Shallow embedding of the client-side search and theme scripts of the blog
repository (`assets/search.js`).  The script wires a modal search dialog:
it filters an in-memory index of post records by case-insensitive substring
match, renders at most 8 results as escaped HTML, and a second IIFE in the
same file persists the light/dark theme preference in local storage.
-/

namespace Blog

/-- A record of the search index (`window.__SEARCH__`): title, optional
description, body text, slug and optional date, as described by the data
model and consumed by the input handler. -/
structure Post where
  title : String
  description : Option String
  body : String
  slug : String
  date : Option String
deriving DecidableEq, Repr

/-- JavaScript truthiness of an optional string: `undefined`/`null` and the
empty string are falsy, every other string is truthy. -/
def strTruthy : Option String → Bool
  | none => false
  | some s => !(s = "")

/-- JS `String.prototype.toLowerCase` restricted to the ASCII range, as a
character map (this is also the range Lean's `Char.toLower` lowers). -/
def lowerStr (s : String) : String := ⟨s.data.map Char.toLower⟩

/-- Strip leading whitespace characters, as JS `trim` does at each end. -/
def trimLeftChars : List Char → List Char
  | [] => []
  | c :: cs => if c.isWhitespace then trimLeftChars cs else c :: cs

/-- JS `String.prototype.trim`: whitespace stripped from both ends. -/
def jsTrim (s : String) : String :=
  ⟨(trimLeftChars (trimLeftChars s.data).reverse).reverse⟩

/-- The query the input handler computes from the text field:
`inp.value.toLowerCase().trim()`. -/
def queryOf (value : String) : String := jsTrim (lowerStr value)

/-- JS `String.prototype.includes`: the needle occurs contiguously in the
haystack. -/
def includesStr (hay need : String) : Bool := decide (need.data <:+: hay.data)

/-- The text a record is matched against:
`p.title + ' ' + (p.description || '') + ' ' + p.body`. -/
def searchText (p : Post) : String :=
  p.title ++ " " ++ (p.description.getD "") ++ " " ++ p.body

/-- The filter predicate of the input handler: the (already lower-cased)
query occurs in the lower-cased concatenation of title, description, body. -/
def matchesQuery (q : String) (p : Post) : Bool :=
  includesStr (lowerStr (searchText p)) q

/-- One step of `escHtml`'s chained global single-character replaces:
every occurrence of `pat` becomes `rep`, all other characters stay. -/
def replaceAllChar (pat : Char) (rep : List Char) : List Char → List Char
  | [] => []
  | c :: cs => (if c = pat then rep else [c]) ++ replaceAllChar pat rep cs

/-- `escHtml(s)`: `(s || '').replace(/&/g,'&amp;').replace(/</g,'&lt;')
.replace(/>/g,'&gt;')` — a missing string becomes empty, then the three
global replaces run in sequence. -/
def escHtml (s : Option String) : String :=
  ⟨replaceAllChar '>' "&gt;".data
    (replaceAllChar '<' "&lt;".data
      (replaceAllChar '&' "&amp;".data (s.getD "").data))⟩

/-- Single-pass description of the escaping: what each character becomes.
Used to characterize `escHtml` (the claim-side reading of the replaces). -/
def escChar (c : Char) : List Char :=
  if c = '&' then "&amp;".data
  else if c = '<' then "&lt;".data
  else if c = '>' then "&gt;".data
  else [c]

/-- The placeholder rendered when no record matches a non-empty query. -/
def noResultsHTML : String := "<li class=\"search-no-results\">No results found</li>"

/-- The HTML of one result entry, as built by `hits.map` in the handler:
slug, title, date and description are each interpolated through `escHtml`,
and the date and description spans render only when the field is truthy. -/
def renderHit (p : Post) : String :=
  "<li><a class=\"search-result\" href=\"/blog/" ++ escHtml (some p.slug) ++ "\">"
    ++ "<span class=\"search-result-title\">" ++ escHtml (some p.title) ++ "</span>"
    ++ (if strTruthy p.date then
          "<span class=\"search-result-date\">" ++ escHtml p.date ++ "</span>"
        else "")
    ++ (if strTruthy p.description then
          "<p class=\"search-result-desc\">" ++ escHtml p.description ++ "</p>"
        else "")
    ++ "</a></li>"

/-- The input handler: computes the query; an empty query clears the list;
otherwise the matching records, capped at 8 (`filter` then `slice(0, 8)`),
are rendered, or the no-results placeholder when none match.  The returned
string is the new `res.innerHTML`. -/
def handleInput (value : String) (idx : List Post) : String :=
  let q := queryOf value
  if q = "" then ""
  else
    let hits := (idx.filter fun p => matchesQuery q p).take 8
    if hits.isEmpty then noResultsHTML
    else String.join (hits.map renderHit)

/-- `idx = window.__SEARCH__ || []`: an absent (undefined/null) index is
replaced by the empty array before any handler runs. -/
def initIdx (search : Option (List Post)) : List Post := search.getD []

/-- The page state the search handlers touch: the index, the text field
value and the results list markup. -/
structure PageState where
  idx : List Post
  inputValue : String
  resultsHTML : String
deriving DecidableEq, Repr

/-- Events relevant to the search input: the user edits the field (the DOM
updates `inp.value`), then the `input` event fires the handler. -/
inductive SearchEvent where
  | setValue (s : String)
  | fireInput
deriving DecidableEq, Repr

/-- Effect of one event on the page state: editing stores the new value,
the `input` handler rewrites only `res.innerHTML`. -/
def stepEvent : SearchEvent → PageState → PageState
  | .setValue s, st => ⟨st.idx, s, st.resultsHTML⟩
  | .fireInput, st => ⟨st.idx, st.inputValue, handleInput st.inputValue st.idx⟩

/-- Run a sequence of input events from a starting page state. -/
def runEvents (evs : List SearchEvent) (st : PageState) : PageState :=
  evs.foldl (fun s e => stepEvent e s) st

/-- State of the search dialog: whether it is shown, the field value, the
results markup, and whether the field has focus. -/
structure DialogState where
  isOpen : Bool
  inputValue : String
  resultsHTML : String
  focused : Bool
deriving DecidableEq, Repr

/-- `openDialog()`: shows the modal, blanks the field, empties the results
list and focuses the field. -/
def openDialog (_st : DialogState) : DialogState :=
  ⟨true, "", "", true⟩

/-- The search button's click listener calls `openDialog`. -/
def onSearchBtnClick (st : DialogState) : DialogState := openDialog st

/-- A keyboard event as the keydown handler reads it. -/
structure KeyEvent where
  ctrlKey : Bool
  metaKey : Bool
  key : String
deriving DecidableEq, Repr

/-- The document keydown handler: `(e.ctrlKey || e.metaKey) && e.key === 'k'`
opens the dialog, anything else is ignored. -/
def onKeydown (e : KeyEvent) (st : DialogState) : DialogState :=
  if (e.ctrlKey || e.metaKey) && e.key == "k" then openDialog st else st

/-- State of the theme script: the value under local storage key `theme`
(persistent across sessions) and the document's `data-theme` attribute. -/
structure ThemeState where
  storage : Option String
  dataTheme : Option String
deriving DecidableEq, Repr

/-- The theme IIFE body at page load: a truthy stored value is applied as
`data-theme`; otherwise the OS dark preference may apply `dark`. -/
def themePageLoad (prefersDark : Bool) (st : ThemeState) : ThemeState :=
  if strTruthy st.storage then ⟨st.storage, st.storage⟩
  else if prefersDark then ⟨st.storage, some "dark"⟩
  else st

/-- The theme toggle's click listener: flip `dark`/`light` based on the
current attribute, store the new value under `theme`, and apply it. -/
def themeToggleClick (st : ThemeState) : ThemeState :=
  let next := if st.dataTheme == some "dark" then "light" else "dark"
  ⟨some next, some next⟩

/-- Number of occurrences of a character in a string. -/
def countChar (c : Char) (s : String) : Nat := s.data.count c

/-- Sample index record with every optional field present. -/
def samplePost : Post :=
  ⟨"Alpha Dog", some "a post", "body text", "alpha-dog", some "2024-01-01"⟩

/-- Sample index record with the optional fields absent. -/
def plainPost : Post := ⟨"alpha", none, "beta", "a", none⟩

/-- Nine identical matching records, to exercise the 8-result cap. -/
def nineIdx : List Post := List.replicate 9 plainPost

lemma replaceAllChar_append (p : Char) (r : List Char) (l₁ l₂ : List Char) :
    replaceAllChar p r (l₁ ++ l₂) = replaceAllChar p r l₁ ++ replaceAllChar p r l₂ := by
  induction l₁ with
  | nil => rfl
  | cons c cs ih => simp [replaceAllChar, ih]

lemma escChain_eq_bind (l : List Char) :
    replaceAllChar '>' "&gt;".data
        (replaceAllChar '<' "&lt;".data
          (replaceAllChar '&' "&amp;".data l)) = l.flatMap escChar := by
  induction l with
  | nil => rfl
  | cons c cs ih =>
    have h1 : replaceAllChar '&' "&amp;".data (c :: cs)
        = (if c = '&' then "&amp;".data else [c]) ++ replaceAllChar '&' "&amp;".data cs := rfl
    rw [h1, replaceAllChar_append, replaceAllChar_append, ih, List.flatMap_cons]
    congr 1
    by_cases hamp : c = '&'
    · subst hamp; rfl
    · by_cases hlt : c = '<'
      · subst hlt; rfl
      · by_cases hgt : c = '>'
        · subst hgt; rfl
        · simp [replaceAllChar, escChar, hamp, hlt, hgt]

lemma escHtml_some_data (s : String) : (escHtml (some s)).data = s.data.flatMap escChar :=
  escChain_eq_bind s.data

lemma lt_not_mem_escChar (c : Char) : '<' ∉ escChar c := by
  unfold escChar
  split_ifs with h1 h2 h3
  · decide
  · decide
  · decide
  · intro h
    simp only [List.mem_singleton] at h
    exact h2 h.symm

lemma gt_not_mem_escChar (c : Char) : '>' ∉ escChar c := by
  unfold escChar
  split_ifs with h1 h2 h3
  · decide
  · decide
  · decide
  · intro h
    simp only [List.mem_singleton] at h
    exact h3 h.symm

lemma lt_not_mem_escHtml (s : Option String) : '<' ∉ (escHtml s).data := by
  cases s with
  | none => decide
  | some s =>
    rw [escHtml_some_data]
    intro h
    rcases List.mem_flatMap.mp h with ⟨c, _, hc⟩
    exact lt_not_mem_escChar c hc

lemma gt_not_mem_escHtml (s : Option String) : '>' ∉ (escHtml s).data := by
  cases s with
  | none => decide
  | some s =>
    rw [escHtml_some_data]
    intro h
    rcases List.mem_flatMap.mp h with ⟨c, _, hc⟩
    exact gt_not_mem_escChar c hc

lemma countChar_append (c : Char) (a b : String) :
    countChar c (a ++ b) = countChar c a + countChar c b := by
  simp [countChar, String.data_append]

lemma countChar_escHtml_lt (s : Option String) : countChar '<' (escHtml s) = 0 :=
  List.count_eq_zero.mpr (lt_not_mem_escHtml s)

lemma countChar_escHtml_gt (s : Option String) : countChar '>' (escHtml s) = 0 :=
  List.count_eq_zero.mpr (gt_not_mem_escHtml s)

lemma isInfix_extend_left (m r X : List Char) (h : m <:+: r) : m <:+: X ++ r := by
  rcases h with ⟨s, t, hst⟩
  exact ⟨X ++ s, t, by rw [List.append_assoc, List.append_assoc, ← List.append_assoc s m t, hst]⟩

lemma isInfix_head (m Y : List Char) : m <:+: m ++ Y := ⟨[], Y, by simp⟩

/-- C9: `escHtml` turns `&` into `&amp;`, `<` into `&lt;`, `>` into `&gt;`,
leaves every other character (quotes included) unchanged, maps a missing
argument to the empty string, and its output never contains a literal `<`
or `>`. -/
theorem escHtml_characterization :
    escHtml none = "" ∧
    (∀ s : String, (escHtml (some s)).data = s.data.flatMap escChar) ∧
    escChar '&' = "&amp;".data ∧
    escChar '<' = "&lt;".data ∧
    escChar '>' = "&gt;".data ∧
    escChar (Char.ofNat 34) = [Char.ofNat 34] ∧
    escChar (Char.ofNat 39) = [Char.ofNat 39] ∧
    (∀ c : Char, c ≠ '&' → c ≠ '<' → c ≠ '>' → escChar c = [c]) ∧
    (∀ s : Option String, '<' ∉ (escHtml s).data ∧ '>' ∉ (escHtml s).data) := by
  refine ⟨rfl, escHtml_some_data, rfl, rfl, rfl, by decide, by decide, ?_, ?_⟩
  · intro c h1 h2 h3
    simp [escChar, h1, h2, h3]
  · intro s
    exact ⟨lt_not_mem_escHtml s, gt_not_mem_escHtml s⟩

/-- C3: in each rendered result entry the interpolated fields are escaped:
the number of literal `<` (and `>`) characters is exactly the number of
markup tags of the template, independent of the record's field contents,
and the escaped title and description occur in the entry. -/
theorem renderHit_escapes_fields (p : Post) :
    countChar '<' (renderHit p)
        = 6 + (if strTruthy p.date then 2 else 0)
            + (if strTruthy p.description then 2 else 0) ∧
    countChar '>' (renderHit p)
        = 6 + (if strTruthy p.date then 2 else 0)
            + (if strTruthy p.description then 2 else 0) ∧
    (escHtml (some p.title)).data <:+: (renderHit p).data ∧
    (escHtml p.description).data <:+: (renderHit p).data := by
  refine ⟨?_, ?_, ?_, ?_⟩
  · unfold renderHit
    by_cases hd : strTruthy p.date <;> by_cases hs : strTruthy p.description <;>
      simp only [hd, hs, if_true, if_false, Bool.false_eq_true, ite_true, ite_false,
        countChar_append, countChar_escHtml_lt] <;> decide
  · unfold renderHit
    by_cases hd : strTruthy p.date <;> by_cases hs : strTruthy p.description <;>
      simp only [hd, hs, if_true, if_false, Bool.false_eq_true, ite_true, ite_false,
        countChar_append, countChar_escHtml_gt] <;> decide
  · unfold renderHit
    simp only [String.data_append, List.append_assoc]
    apply isInfix_extend_left
    apply isInfix_extend_left
    apply isInfix_extend_left
    apply isInfix_extend_left
    exact isInfix_head _ _
  · by_cases hs : strTruthy p.description
    · unfold renderHit
      simp only [hs, if_true, String.data_append, List.append_assoc]
      by_cases hd : strTruthy p.date <;> simp only [hd, if_true, if_false,
        Bool.false_eq_true, ite_true, ite_false, String.data_append, List.append_assoc] <;>
        repeat
          first
          | exact isInfix_head _ _
          | apply isInfix_extend_left
    · have hnil : (escHtml p.description).data = [] := by
        cases hdesc : p.description with
        | none => rfl
        | some s =>
          rw [hdesc] at hs
          have hse : s = "" := by
            by_contra hne
            exact hs (by simp [strTruthy, hne])
          subst hse
          rfl
      rw [hnil]
      exact ⟨[], (renderHit p).data, by simp⟩

/-- C1: for a non-empty trimmed query, a record passes the handler's filter
exactly when the lower-cased query occurs in the lower-cased concatenation
of title, the description defaulted to the empty string, and body, joined
by single spaces; and the handler renders precisely the first 8 of those
filtered records. -/
theorem filter_selects_exact_matches (value : String) (idx : List Post) (p : Post)
    (hq : queryOf value ≠ "") :
    (p ∈ idx.filter (fun r => matchesQuery (queryOf value) r) ↔
      p ∈ idx ∧
        (queryOf value).data <:+:
          (lowerStr (p.title ++ " " ++ p.description.getD "" ++ " " ++ p.body)).data) ∧
    handleInput value idx =
      (if ((idx.filter fun r => matchesQuery (queryOf value) r).take 8).isEmpty
        then noResultsHTML
        else String.join
          (((idx.filter fun r => matchesQuery (queryOf value) r).take 8).map renderHit)) := by
  constructor
  · simp [List.mem_filter, matchesQuery, includesStr, searchText]
  · simp only [handleInput, if_neg hq]

/-- C1 witness at a concrete query and one-record index. -/
theorem filter_selects_exact_matches_witness :
    queryOf "alp" ≠ "" ∧
    ((plainPost ∈ List.filter (fun r => matchesQuery (queryOf "alp") r) [plainPost] ↔
      plainPost ∈ [plainPost] ∧
        (queryOf "alp").data <:+:
          (lowerStr (plainPost.title ++ " " ++ plainPost.description.getD "" ++ " "
            ++ plainPost.body)).data) ∧
    handleInput "alp" [plainPost] =
      (if ((List.filter (fun r => matchesQuery (queryOf "alp") r) [plainPost]).take 8).isEmpty
        then noResultsHTML
        else String.join
          (((List.filter (fun r => matchesQuery (queryOf "alp") r) [plainPost]).take 8).map
            renderHit))) :=
  ⟨by decide, filter_selects_exact_matches "alp" [plainPost] plainPost (by decide)⟩

/-- C2: the rendered hits are the matching records truncated to at most 8:
their number is at most 8 (the minimum of 8 and the number of matches),
they form a prefix of the filtered list (original index order), and when
more than 8 records match exactly 8 are kept. -/
theorem results_capped_at_eight (value : String) (idx : List Post) :
    ((idx.filter fun r => matchesQuery (queryOf value) r).take 8).length ≤ 8 ∧
    ((idx.filter fun r => matchesQuery (queryOf value) r).take 8).length
      = min 8 (idx.filter fun r => matchesQuery (queryOf value) r).length ∧
    ((idx.filter fun r => matchesQuery (queryOf value) r).take 8)
      <+: (idx.filter fun r => matchesQuery (queryOf value) r) ∧
    (8 < (idx.filter fun r => matchesQuery (queryOf value) r).length →
      ((idx.filter fun r => matchesQuery (queryOf value) r).take 8).length = 8) := by
  refine ⟨?_, List.length_take 8 _, ?_, ?_⟩
  · rw [List.length_take]
    exact Nat.min_le_left 8 _
  · exact ⟨(idx.filter fun r => matchesQuery (queryOf value) r).drop 8,
      List.take_append_drop 8 _⟩
  · intro h
    rw [List.length_take]
    exact Nat.min_eq_left (Nat.le_of_lt h)

/-- C2 witness on an index where 9 records match the query. -/
theorem results_capped_at_eight_witness :
    ((nineIdx.filter fun r => matchesQuery (queryOf "alp") r).take 8).length ≤ 8 ∧
    ((nineIdx.filter fun r => matchesQuery (queryOf "alp") r).take 8).length
      = min 8 (nineIdx.filter fun r => matchesQuery (queryOf "alp") r).length ∧
    ((nineIdx.filter fun r => matchesQuery (queryOf "alp") r).take 8)
      <+: (nineIdx.filter fun r => matchesQuery (queryOf "alp") r) ∧
    (8 < (nineIdx.filter fun r => matchesQuery (queryOf "alp") r).length →
      ((nineIdx.filter fun r => matchesQuery (queryOf "alp") r).take 8).length = 8) :=
  results_capped_at_eight "alp" nineIdx

/-- C4: when lower-casing and trimming the field value yields the empty
string, the handler clears the results list, and its output is the same
whatever the index is — no record is consulted. -/
theorem empty_query_clears_results (value : String) (idx idx₂ : List Post)
    (h : queryOf value = "") :
    handleInput value idx = "" ∧ handleInput value idx₂ = handleInput value idx := by
  constructor
  · simp [handleInput, h]
  · simp [handleInput, h]

/-- C4 witness on a whitespace-only value and two different indexes. -/
theorem empty_query_clears_results_witness :
    queryOf "   " = "" ∧
    (handleInput "   " [plainPost] = "" ∧
      handleInput "   " [samplePost, plainPost] = handleInput "   " [plainPost]) :=
  ⟨by decide, empty_query_clears_results "   " [plainPost] [samplePost, plainPost] (by decide)⟩

/-- C5: a non-empty query that matches no record makes the handler render
the single no-results list item instead of result entries. -/
theorem no_match_renders_placeholder (value : String) (idx : List Post)
    (hq : queryOf value ≠ "")
    (hm : idx.filter (fun r => matchesQuery (queryOf value) r) = []) :
    handleInput value idx = noResultsHTML := by
  simp [handleInput, hq, hm]

/-- C5 witness: a query matching nothing in a one-record index. -/
theorem no_match_renders_placeholder_witness :
    queryOf "zzz" ≠ "" ∧
    List.filter (fun r => matchesQuery (queryOf "zzz") r) [plainPost] = [] ∧
    handleInput "zzz" [plainPost] = noResultsHTML :=
  ⟨by decide, by decide,
    no_match_renders_placeholder "zzz" [plainPost] (by decide) (by decide)⟩

/-- C6 counterexample: with `window.__SEARCH__` absent the script does not
fail — line 7 substitutes the empty array — and the handler runs normally,
rendering the no-results placeholder for a concrete query. -/
theorem absent_index_counterexample :
    initIdx none = [] ∧ handleInput "anything" (initIdx none) = noResultsHTML := by
  constructor
  · rfl
  · rfl

/-- C6 amended: with `window.__SEARCH__` absent the index defaults to the
empty array, so every input event completes normally — an empty query
clears the list and any other query renders the no-results placeholder. -/
theorem absent_index_defaults_to_empty (value : String) :
    initIdx none = [] ∧
    (queryOf value = "" → handleInput value (initIdx none) = "") ∧
    (queryOf value ≠ "" → handleInput value (initIdx none) = noResultsHTML) := by
  refine ⟨rfl, ?_, ?_⟩
  · intro h
    simp [handleInput, h]
  · intro h
    simp [handleInput, h, initIdx]

/-- C6 amended witness at a concrete query. -/
theorem absent_index_defaults_to_empty_witness :
    initIdx none = [] ∧
    (queryOf "anything else" = "" → handleInput "anything else" (initIdx none) = "") ∧
    (queryOf "anything else" ≠ "" →
      handleInput "anything else" (initIdx none) = noResultsHTML) :=
  absent_index_defaults_to_empty "anything else"

/-- C7: a toggle click stores the flipped theme under the `theme` key and
applies it; any later page load of a state carrying that stored value (a
fresh session) re-applies it as `data-theme`, whatever the OS preference. -/
theorem theme_toggle_persists_and_restores (st st₂ : ThemeState) (prefersDark : Bool)
    (h : st₂.storage = (themeToggleClick st).storage) :
    (themeToggleClick st).storage
      = some (if st.dataTheme == some "dark" then "light" else "dark") ∧
    (themeToggleClick st).dataTheme = (themeToggleClick st).storage ∧
    (themePageLoad prefersDark st₂).dataTheme = (themeToggleClick st).storage := by
  refine ⟨rfl, rfl, ?_⟩
  have hs : strTruthy st₂.storage = true := by
    rw [h]
    unfold themeToggleClick
    by_cases hb : st.dataTheme == some "dark" <;> simp [hb, strTruthy]
  rw [themePageLoad, if_pos hs, h]

/-- C7 witness: toggling from an unset theme stores `dark`, and a fresh
session restores it on load. -/
theorem theme_toggle_persists_and_restores_witness :
    (ThemeState.mk (some "dark") none).storage
      = (themeToggleClick (ThemeState.mk none none)).storage ∧
    ((themeToggleClick (ThemeState.mk none none)).storage
        = some (if (ThemeState.mk none none).dataTheme == some "dark"
            then "light" else "dark") ∧
      (themeToggleClick (ThemeState.mk none none)).dataTheme
        = (themeToggleClick (ThemeState.mk none none)).storage ∧
      (themePageLoad false (ThemeState.mk (some "dark") none)).dataTheme
        = (themeToggleClick (ThemeState.mk none none)).storage) :=
  ⟨by decide,
    theme_toggle_persists_and_restores (ThemeState.mk none none)
      (ThemeState.mk (some "dark") none) false (by decide)⟩

/-- C8: no sequence of input events changes the index: the handlers read
the records and rewrite only the results markup, so every record and each
of its fields is untouched. -/
theorem input_events_preserve_index (evs : List SearchEvent) (st : PageState) :
    (runEvents evs st).idx = st.idx := by
  induction evs generalizing st with
  | nil => rfl
  | cons e evs ih =>
    have h1 : runEvents (e :: evs) st = runEvents evs (stepEvent e st) := rfl
    rw [h1, ih]
    cases e <;> rfl

/-- C10: both opening paths — the button click and a Ctrl/Meta + `k`
keydown — run `openDialog`, which blanks the field, empties the results
list, focuses the input and shows the dialog, so earlier results are gone
whenever the dialog opens. -/
theorem open_dialog_paths_reset_state (st : DialogState) (e : KeyEvent)
    (hk : ((e.ctrlKey || e.metaKey) && e.key == "k") = true) :
    (openDialog st).inputValue = "" ∧
    (openDialog st).resultsHTML = "" ∧
    (openDialog st).focused = true ∧
    (openDialog st).isOpen = true ∧
    onSearchBtnClick st = openDialog st ∧
    onKeydown e st = openDialog st := by
  refine ⟨rfl, rfl, rfl, rfl, rfl, ?_⟩
  rw [onKeydown, if_pos hk]

/-- C10 witness: a dialog holding stale results, opened via Ctrl+k. -/
theorem open_dialog_paths_reset_state_witness :
    ((((KeyEvent.mk true false "k").ctrlKey || (KeyEvent.mk true false "k").metaKey)
        && (KeyEvent.mk true false "k").key == "k") = true) ∧
    ((openDialog (DialogState.mk false "old" "stale" false)).inputValue = "" ∧
      (openDialog (DialogState.mk false "old" "stale" false)).resultsHTML = "" ∧
      (openDialog (DialogState.mk false "old" "stale" false)).focused = true ∧
      (openDialog (DialogState.mk false "old" "stale" false)).isOpen = true ∧
      onSearchBtnClick (DialogState.mk false "old" "stale" false)
        = openDialog (DialogState.mk false "old" "stale" false) ∧
      onKeydown (KeyEvent.mk true false "k") (DialogState.mk false "old" "stale" false)
        = openDialog (DialogState.mk false "old" "stale" false)) :=
  ⟨by decide,
    open_dialog_paths_reset_state (DialogState.mk false "old" "stale" false)
      (KeyEvent.mk true false "k") (by decide)⟩

end Blog
